import Mathlib

/-!
# xk6-distributed-tracing: the `tracing` module (`tracing.go`)

A shallow embedding of the JavaScript-facing module: the options resolver
`parseClientOptions`, the resource descriptor `newResource`, the module
exports, and the `Http` constructor with its effects on the process-wide
tracing state.

Go values that come from libraries are modelled as follows.

* A `goja.Value` is a `goja.Value` below: the two empty values, the primitive
  values, arrays, and plain objects given by their own enumerable properties
  in enumeration order.  A Go `nil` interface value is
  `none : Option goja.Value`.  A conversion of the runtime that throws (a
  panic carrying a JavaScript exception) returns `Except.error`.
* A Go `error` is the text of its message; `(T, error)` results are pairs
  `T × Option String`, exactly as the Go function returns both components.
* The OpenTelemetry objects (exporter, tracer provider, tracer) are records
  carrying an allocation number, and the process-wide state they live in is
  the explicit `World`.
-/

set_option autoImplicit false

namespace goja

/-- A JavaScript value as seen by `parseClientOptions`.  A number is an
integer of magnitude below `2^53`, the range in which the string conversion
prints every digit.  An array is dense and has no property besides its
elements.  An object is a plain data object with the default prototype: the
list of its own enumerable string-keyed properties, in enumeration order;
no property of it is a function. -/
inductive Value where
  | undefined : Value
  | null : Value
  | bool (b : Bool) : Value
  | number (n : Int) (safe : n.natAbs ≤ 9007199254740991) : Value
  | string (s : String) : Value
  | array (items : List Value) : Value
  | object (props : List (String × Value)) : Value

/-- A JavaScript exception raised by the runtime itself during a value
conversion. -/
inductive Exception where
  | typeError : Exception
  deriving DecidableEq

/-- The function `goja.IsUndefined`. -/
def IsUndefined : Value → Bool
  | .undefined => true
  | _ => false

/-- The function `goja.IsNull`. -/
def IsNull : Value → Bool
  | .null => true
  | _ => false

/-- The result of `val.ToObject(rt)`, given by its own enumerable properties
in enumeration order.  An object is itself; an array has one property per
element and a string wrapper one per character, keyed by the index (for
characters of the basic plane, where a character is one UTF-16 unit); a
boolean or number wrapper has no enumerable property.  (`undefined` and
`null` have no object conversion; the caller never converts them.) -/
def Value.ToObject : Value → List (String × Value)
  | .object props => props
  | .array items => items.enum.map (fun p => (toString p.1, p.2))
  | .string s => s.data.enum.map (fun p => (toString p.1, Value.string (String.singleton p.2)))
  | _ => []

/-- The method `(*goja.Object).Keys`: the enumerable keys, in order. -/
def Keys (params : List (String × Value)) : List String :=
  params.map Prod.fst

/-- The method `(*goja.Object).Get`: the value of a property, `undefined`
when the object has none of that name. -/
def Get (params : List (String × Value)) (k : String) : Value :=
  match params.find? (fun p => p.1 == k) with
  | some p => p.2
  | none => Value.undefined

/-- One more element text in front of the texts of the elements after it;
an exception of the element comes before one of the later elements. -/
def consText (t : Except Exception String) (ts : Except Exception (List String)) :
    Except Exception (List String) :=
  match t with
  | .error ex => .error ex
  | .ok text =>
    match ts with
    | .error ex => .error ex
    | .ok texts => .ok (text :: texts)

mutual

/-- The conversion `v.ToString().String()`: the JavaScript string conversion
of a value.  An array converts to its elements joined by commas.  A plain
object converts through the inherited `toString` to `[object Object]`,
unless it has an own `toString` property: that property is not a function,
the inherited `valueOf` yields the object itself, and the conversion throws
a TypeError. -/
def Value.ToString : Value → Except Exception String
  | .undefined => .ok "undefined"
  | .null => .ok "null"
  | .bool true => .ok "true"
  | .bool false => .ok "false"
  | .number n _ => .ok (toString n)
  | .string s => .ok s
  | .array items =>
    match joinTexts items with
    | .ok texts => .ok (String.intercalate "," texts)
    | .error ex => .error ex
  | .object props =>
    if props.any (fun p => p.1 == "toString") then .error Exception.typeError
    else .ok "[object Object]"

/-- The texts of the elements of an array, as `Array.prototype.join` takes
them: the empty text for `undefined` and `null`, the string conversion for
any other element, in order; the first conversion that throws ends it. -/
def joinTexts : List Value → Except Exception (List String)
  | [] => .ok []
  | .undefined :: vs => consText (.ok "") (joinTexts vs)
  | .null :: vs => consText (.ok "") (joinTexts vs)
  | v :: vs => consText (Value.ToString v) (joinTexts vs)

end

end goja

namespace client

/-- Modelled from the spec: the constant `client.PropagatorW3C` of the
repository package `client`, which is not part of the module file; the
specification gives the default propagator name as `"w3c"`. -/
def PropagatorW3C : String := "w3c"

/-- The struct `client.Options`, with the one field the module sets. -/
structure Options where
  Propagator : String
  deriving DecidableEq

end client

namespace semconv

/-- The constant `semconv.SchemaURL` of the semantic conventions v1.4.0. -/
def SchemaURL : String := "https://opentelemetry.io/schemas/1.4.0"

/-- The attribute key `semconv.ServiceNameKey`. -/
def ServiceNameKey : String := "service.name"

/-- The attribute key `semconv.ServiceVersionKey`. -/
def ServiceVersionKey : String := "service.version"

end semconv

namespace resource

/-- A resource descriptor `*resource.Resource`: a schema URL and a set of
string attributes, kept in key order. -/
structure Resource where
  schemaURL : String
  attrs : List (String × String)
  deriving DecidableEq

/-- The function `resource.NewWithAttributes`, on attributes with distinct
keys given in key order (the only call in the module is of that form). -/
def NewWithAttributes (schemaURL : String) (attrs : List (String × String)) : Resource :=
  { schemaURL := schemaURL, attrs := attrs }

end resource

namespace otel

/-- A span exporter `*otlptrace.Exporter`, identified by its allocation
number. -/
structure Exporter where
  id : Nat
  deriving DecidableEq

/-- A tracer provider `*sdktrace.TracerProvider`: its allocation number, the
exporter behind its batch processor and its resource descriptor. -/
structure TracerProvider where
  id : Nat
  batcher : Exporter
  resource : resource.Resource
  deriving DecidableEq

/-- A tracer, as handed out by a provider under an instrumentation name. -/
structure Tracer where
  provider : TracerProvider
  name : String
  deriving DecidableEq

/-- The method `(*TracerProvider).Tracer`. -/
def TracerProvider.Tracer (p : TracerProvider) (name : String) : Tracer :=
  { provider := p, name := name }

/-- The process-wide tracing state: every exporter and every tracer provider
created so far, oldest first, and the globally registered provider (`none`
while only the library default is registered). -/
structure World where
  exporters : List Exporter
  providers : List TracerProvider
  globalProvider : Option TracerProvider
  deriving DecidableEq

/-- The state of a process in which nothing has been created yet. -/
def World.init : World :=
  { exporters := [], providers := [], globalProvider := none }

/-- The call `otlptrace.New(context.Background(), otlptracegrpc.NewClient())`:
`startErr` is the error of starting the gRPC client, if any.  On success a
new exporter is allocated; on failure none is. -/
def otlptraceNew (startErr : Option String) (w : World) : Except String (Exporter × World) :=
  match startErr with
  | some err => .error err
  | none =>
    let exporter : Exporter := { id := w.exporters.length }
    .ok (exporter, { w with exporters := w.exporters ++ [exporter] })

/-- The call `sdktrace.NewTracerProvider(WithBatcher(exporter),
WithResource(res))`: allocates a provider. -/
def NewTracerProvider (exporter : Exporter) (res : resource.Resource) (w : World) :
    TracerProvider × World :=
  let p : TracerProvider := { id := w.providers.length, batcher := exporter, resource := res }
  (p, { w with providers := w.providers ++ [p] })

/-- The function `otel.SetTracerProvider`. -/
def SetTracerProvider (p : TracerProvider) (w : World) : World :=
  { w with globalProvider := some p }

end otel

namespace modules

/-- A virtual user `modules.VU`, identified by its number. -/
structure VU where
  id : Nat
  deriving DecidableEq

end modules

namespace client

/-- The type `client.HttpRequestFunc`: the `request` function of a k6 HTTP
module instance, identified by the virtual user it belongs to. -/
structure HttpRequestFunc where
  owner : modules.VU
  deriving DecidableEq

/-- Modelled from the spec: the value built by `client.New`, of the
repository package `client`, which is not part of the module file; the
client object holds what the constructor is given. -/
structure Client where
  vu : modules.VU
  httpRequest : HttpRequestFunc
  tracer : otel.Tracer
  opts : Options
  deriving DecidableEq

/-- Modelled from the spec: the constructor `client.New`, which is not part
of the module file. -/
def New (vu : modules.VU) (httpRequest : HttpRequestFunc) (tracer : otel.Tracer)
    (opts : Options) : Client :=
  { vu := vu, httpRequest := httpRequest, tracer := tracer, opts := opts }

end client

namespace tracing

open goja

/-- The constant `version`. -/
def version : String := "0.2.0"

/-- The error built by `fmt.Errorf("unknown HTTP tracing option '%s'", k)`. -/
def unknownOptionError (k : String) : String :=
  "unknown HTTP tracing option '" ++ k ++ "'"

/-- How a call of a Go function of the module ends: it returns a value, it
throws an error to the calling script (`common.Throw`), an exception of the
runtime passes through it to the calling script, it panics (`panic`), or it
logs and exits the process (`log.Fatalf`). -/
inductive Outcome (α : Type) where
  | returned (a : α) : Outcome α
  | thrown (err : String) : Outcome α
  | exception (ex : Exception) : Outcome α
  | panicked (err : String) : Outcome α
  | fatal (err : String) : Outcome α
  deriving DecidableEq

/-- The loop `for _, k := range params.Keys()` of `parseClientOptions`, over
the keys still to visit: a `propagator` key overwrites the propagator with
the string conversion of its value, and an exception of that conversion
leaves the function; any other key returns at once with the options as they
stand and the error. -/
def parseKeys (params : List (String × Value)) :
    List String → client.Options → Except Exception (client.Options × Option String)
  | [], opts => .ok (opts, none)
  | k :: ks, opts =>
    if k = "propagator" then
      match (Get params k).ToString with
      | .error ex => .error ex
      | .ok text => parseKeys params ks { opts with Propagator := text }
    else
      .ok (opts, some (unknownOptionError k))

/-- The method `(*DistributedTracing).parseClientOptions`: the two results of
the Go function when it returns, the exception when a conversion throws.
The receiver is used only for its runtime, which the object conversion does
not depend on here. -/
def parseClientOptions (val : Option Value) :
    Except Exception (client.Options × Option String) :=
  let opts : client.Options := { Propagator := client.PropagatorW3C }
  match val with
  | none => .ok (opts, none)
  | some v =>
    if IsUndefined v || IsNull v then .ok (opts, none)
    else
      let params := v.ToObject
      parseKeys params (Keys params) opts

/-- The function `newResource`. -/
def newResource (_ : Unit) : resource.Resource :=
  resource.NewWithAttributes semconv.SchemaURL
    [(semconv.ServiceNameKey, "xk6-otlptrace"), (semconv.ServiceVersionKey, "0.0.1")]

/-- The struct `DistributedTracing`: one module instance. -/
structure DistributedTracing where
  vu : modules.VU
  httpRequest : client.HttpRequestFunc
  deriving DecidableEq

/-- The method `goja.ConstructorCall.Argument`: the argument at an index,
`undefined` when the call has fewer arguments. -/
def Argument (args : List Value) (idx : Nat) : Value :=
  args.getD idx Value.undefined

/-- The method `(*RootModule).NewModuleInstance`.  `exported` is the result
of exporting the `request` function of the k6 HTTP module of the virtual
user to a Go function: the function, or the error of the export. -/
def NewModuleInstance (vu : modules.VU) (exported : Except String client.HttpRequestFunc)
    (w : otel.World) : Outcome DistributedTracing × otel.World :=
  match exported with
  | .error err => (.panicked err, w)
  | .ok requestFunc => (.returned { vu := vu, httpRequest := requestFunc }, w)

/-- The method `(*DistributedTracing).http`, the `Http` constructor.
`startErr` is the error of creating the exporter, if any. -/
def http (t : DistributedTracing) (args : List Value) (startErr : Option String)
    (w : otel.World) : Outcome client.Client × otel.World :=
  match parseClientOptions (some (Argument args 0)) with
  | .error ex => (.exception ex, w)
  | .ok (_, some err) => (.thrown err, w)
  | .ok (opts, none) =>
    match otel.otlptraceNew startErr w with
    | .error err => (.fatal err, w)
    | .ok (exporter, w1) =>
      let (traceProvider, w2) := otel.NewTracerProvider exporter (newResource ()) w1
      let w3 := otel.SetTracerProvider traceProvider w2
      let tracer := traceProvider.Tracer "xk6-otel-tracing"
      (.returned (client.New t.vu t.httpRequest tracer opts), w3)

/-- A value exported to scripts: a constructor function or a string. -/
inductive Export where
  | func (f : List Value → Option String → otel.World → Outcome client.Client × otel.World) : Export
  | str (s : String) : Export

/-- The struct `modules.Exports`: the default export and the named ones. -/
structure Exports where
  Default : Option Export
  Named : List (String × Export)

/-- The method `(*DistributedTracing).Exports`. -/
def DistributedTracing.Exports (c : DistributedTracing) : Exports :=
  { Default := none
    Named := [("Http", Export.func (http c)), ("version", Export.str version)] }

/-- A sequence of `Http` constructor calls, each given by its module instance
and its arguments, in a process that goes on (no exporter creation fails):
the outcome of every call and the final state.  A thrown error or exception
leaves the script free to make the next call. -/
def runCalls : List (DistributedTracing × List Value) → otel.World →
    List (Outcome client.Client) × otel.World
  | [], w => ([], w)
  | (t, args) :: rest, w =>
    let r := http t args none w
    let rs := runCalls rest r.2
    (r.1 :: rs.1, rs.2)

/-- Whether a call outcome is a returned client. -/
def Outcome.isReturned {α : Type} : Outcome α → Bool
  | .returned _ => true
  | _ => false

/-- The allocation invariant of the process-wide state: every exporter and
every provider created so far carries a number below the count of those
created, so the next allocation is of an object not yet in the state. -/
def WellNumbered (w : otel.World) : Prop :=
  (∀ e ∈ w.exporters, e.id < w.exporters.length) ∧
  (∀ p ∈ w.providers, p.id < w.providers.length)

instance (w : otel.World) : Decidable (WellNumbered w) := by
  unfold WellNumbered
  infer_instance

/-- The exporter allocated by a successful `Http` constructor call in state
`w`. -/
def nextExporter (w : otel.World) : otel.Exporter :=
  { id := w.exporters.length }

/-- The tracer provider allocated by a successful `Http` constructor call in
state `w`. -/
def nextProvider (w : otel.World) : otel.TracerProvider :=
  { id := w.providers.length, batcher := nextExporter w, resource := newResource () }

/-! ## The options resolver -/

theorem parseKeys_propagators (params : List (String × Value)) (pre rest : List String)
    (opts : client.Options) (hpre : ∀ x ∈ pre, x = "propagator") (hne : pre ≠ []) :
    parseKeys params (pre ++ rest) opts =
      match (Get params "propagator").ToString with
      | .error ex => .error ex
      | .ok text => parseKeys params rest { Propagator := text } := by
  induction pre generalizing opts with
  | nil => exact absurd rfl hne
  | cons x pre ih =>
    have hx : x = "propagator" := hpre x (List.mem_cons_self _ _)
    have hrest : ∀ y ∈ pre, y = "propagator" := fun y hy => hpre y (List.mem_cons_of_mem _ hy)
    subst hx
    simp only [List.cons_append, parseKeys, if_true]
    cases hc : (Get params "propagator").ToString with
    | error ex => rfl
    | ok text =>
      simp only []
      by_cases hnil : pre = []
      · subst hnil
        rfl
      · show parseKeys params (pre ++ rest) { Propagator := text } = _
        rw [ih _ hrest hnil, hc]

theorem parseKeys_first_unknown (params : List (String × Value)) (pre post : List String)
    (k : String) (opts : client.Options) (hpre : ∀ x ∈ pre, x = "propagator")
    (hk : k ≠ "propagator") :
    parseKeys params (pre ++ k :: post) opts =
      if pre = [] then .ok (opts, some (unknownOptionError k))
      else
        match (Get params "propagator").ToString with
        | .error ex => .error ex
        | .ok text => .ok ({ Propagator := text }, some (unknownOptionError k)) := by
  by_cases hnil : pre = []
  · subst hnil
    simp [parseKeys, hk]
  · rw [parseKeys_propagators params pre (k :: post) opts hpre hnil, if_neg hnil]
    cases (Get params "propagator").ToString with
    | error ex => rfl
    | ok text => simp [parseKeys, hk]

theorem parseKeys_all_propagator (params : List (String × Value)) (ks : List String)
    (opts : client.Options) (h : ∀ k ∈ ks, k = "propagator") :
    parseKeys params ks opts =
      if ks = [] then .ok (opts, none)
      else
        match (Get params "propagator").ToString with
        | .error ex => .error ex
        | .ok text => .ok ({ Propagator := text }, none) := by
  by_cases hnil : ks = []
  · subst hnil
    rfl
  · have hrun := parseKeys_propagators params ks [] opts h hnil
    rw [List.append_nil] at hrun
    rw [hrun, if_neg hnil]
    cases (Get params "propagator").ToString with
    | error ex => rfl
    | ok text => rfl

theorem exists_first_unknown (ks : List String) (h : ∃ k ∈ ks, k ≠ "propagator") :
    ∃ pre k post, ks = pre ++ k :: post ∧ (∀ x ∈ pre, x = "propagator") ∧ k ≠ "propagator" := by
  induction ks with
  | nil => obtain ⟨k, hk, _⟩ := h; cases hk
  | cons a ks ih =>
    by_cases ha : a = "propagator"
    · obtain ⟨k, hk, hne⟩ := h
      have hk2 : k ∈ ks := by
        rcases List.mem_cons.mp hk with rfl | hk2
        · exact absurd ha hne
        · exact hk2
      obtain ⟨pre, k2, post, he, hp, hn⟩ := ih ⟨k, hk2, hne⟩
      refine ⟨a :: pre, k2, post, by simp [he], ?_, hn⟩
      intro x hx
      rcases List.mem_cons.mp hx with rfl | hx2
      · exact ha
      · exact hp x hx2
    · exact ⟨[], a, ks, rfl, by simp, ha⟩

theorem first_unknown_unique (pre pre2 post post2 : List String) (k k2 : String)
    (he : pre ++ k :: post = pre2 ++ k2 :: post2)
    (hp : ∀ x ∈ pre, x = "propagator") (hk : k ≠ "propagator")
    (hp2 : ∀ x ∈ pre2, x = "propagator") (hk2 : k2 ≠ "propagator") :
    pre = pre2 ∧ k = k2 := by
  induction pre generalizing pre2 with
  | nil =>
    cases pre2 with
    | nil =>
      simp only [List.nil_append, List.cons.injEq] at he
      exact ⟨rfl, he.1⟩
    | cons y pre2 =>
      simp only [List.nil_append, List.cons_append, List.cons.injEq] at he
      exact absurd (he.1 ▸ hp2 y (List.mem_cons_self _ _)) hk
  | cons x pre ih =>
    cases pre2 with
    | nil =>
      simp only [List.nil_append, List.cons_append, List.cons.injEq] at he
      exact absurd (he.1 ▸ hp x (List.mem_cons_self _ _)) hk2
    | cons y pre2 =>
      simp only [List.cons_append, List.cons.injEq] at he
      obtain ⟨h1, h2⟩ := ih pre2 he.2 (fun z hz => hp z (List.mem_cons_of_mem _ hz))
        (fun z hz => hp2 z (List.mem_cons_of_mem _ hz))
      exact ⟨by rw [he.1, h1], h2⟩

theorem parseKeys_error_iff (params : List (String × Value)) (ks : List String)
    (opts : client.Options) :
    (∃ o err, parseKeys params ks opts = .ok (o, some err)) ↔
      ∃ pre k post, ks = pre ++ k :: post ∧ (∀ x ∈ pre, x = "propagator") ∧
        k ≠ "propagator" ∧
        (pre ≠ [] → ∃ text, (Get params "propagator").ToString = .ok text) := by
  constructor
  · rintro ⟨o, err, h⟩
    by_cases hex : ∃ k ∈ ks, k ≠ "propagator"
    · obtain ⟨pre, k, post, he, hp, hk⟩ := exists_first_unknown ks hex
      refine ⟨pre, k, post, he, hp, hk, ?_⟩
      intro hne
      rw [he, parseKeys_first_unknown params pre post k opts hp hk, if_neg hne] at h
      cases hc : (Get params "propagator").ToString with
      | error ex => rw [hc] at h; cases h
      | ok text => exact ⟨text, rfl⟩
    · have hall : ∀ k ∈ ks, k = "propagator" := by
        intro k hk
        by_contra hne
        exact hex ⟨k, hk, hne⟩
      rw [parseKeys_all_propagator params ks opts hall] at h
      by_cases hnil : ks = []
      · rw [if_pos hnil] at h; cases h
      · rw [if_neg hnil] at h
        cases hc : (Get params "propagator").ToString with
        | error ex => rw [hc] at h; cases h
        | ok text => rw [hc] at h; cases h
  · rintro ⟨pre, k, post, he, hp, hk, hconv⟩
    rw [he, parseKeys_first_unknown params pre post k opts hp hk]
    by_cases hnil : pre = []
    · rw [if_pos hnil]; exact ⟨_, _, rfl⟩
    · rw [if_neg hnil]
      obtain ⟨text, hc⟩ := hconv hnil
      rw [hc]
      exact ⟨_, _, rfl⟩

theorem parseClientOptions_present (v : Value) (hu : v ≠ Value.undefined)
    (hn : v ≠ Value.null) :
    parseClientOptions (some v) =
      parseKeys v.ToObject (Keys v.ToObject) { Propagator := client.PropagatorW3C } := by
  have hu2 : IsUndefined v = false := by cases v <;> simp_all [IsUndefined]
  have hn2 : IsNull v = false := by cases v <;> simp_all [IsNull]
  simp [parseClientOptions, hu2, hn2]

end tracing

namespace tracing

open goja

/-- C1 fails as stated: the configuration `{propagator: {toString: 1}, foo: 1}`
is present and has the key `foo`, and `{propagator: {toString: 1}}` has only
the key `propagator`, yet on both `parseClientOptions` leaves with the
TypeError of the string conversion: it returns neither an error nor a clean
result. -/
theorem parseClientOptions_error_iff_counterexample :
    parseClientOptions (some (Value.object
        [("propagator", Value.object [("toString", Value.number 1 (by decide))]),
         ("foo", Value.number 1 (by decide))]))
      = Except.error Exception.typeError ∧
    Keys (Value.object
        [("propagator", Value.object [("toString", Value.number 1 (by decide))]),
         ("foo", Value.number 1 (by decide))]).ToObject = ["propagator", "foo"] ∧
    parseClientOptions (some (Value.object
        [("propagator", Value.object [("toString", Value.number 1 (by decide))])]))
      = Except.error Exception.typeError ∧
    Keys (Value.object
        [("propagator", Value.object [("toString", Value.number 1 (by decide))])]).ToObject
      = ["propagator"] :=
  ⟨rfl, rfl, rfl, rfl⟩

/-- C1, amended: `parseClientOptions` returns an error exactly when the
configuration value is present (not nil, undefined or null), its enumerated
keys contain a key other than `propagator`, and, when a `propagator` key
comes before the first such key, the string conversion of the propagator
value does not throw; with only `propagator` keys (or none) and a propagator
value whose string conversion does not throw, it returns no error. -/
theorem parseClientOptions_error_iff (val : Option Value) :
    ((∃ opts err, parseClientOptions val = Except.ok (opts, some err)) ↔
      ∃ v, val = some v ∧ v ≠ Value.undefined ∧ v ≠ Value.null ∧
        ∃ pre k post, Keys v.ToObject = pre ++ k :: post ∧
          (∀ x ∈ pre, x = "propagator") ∧ k ≠ "propagator" ∧
          (pre ≠ [] → ∃ text, (Get v.ToObject "propagator").ToString = Except.ok text)) ∧
    ((∀ v, val = some v → (∀ k ∈ Keys v.ToObject, k = "propagator") ∧
        ∃ text, (Get v.ToObject "propagator").ToString = Except.ok text) →
      ∃ opts, parseClientOptions val = Except.ok (opts, none)) := by
  constructor
  · cases val with
    | none => simp [parseClientOptions]
    | some v =>
      by_cases hu : v = Value.undefined
      · subst hu; simp [parseClientOptions, IsUndefined]
      · by_cases hn : v = Value.null
        · subst hn; simp [parseClientOptions, IsUndefined, IsNull]
        · rw [parseClientOptions_present v hu hn, parseKeys_error_iff]
          constructor
          · rintro ⟨pre, k, post, h⟩
            exact ⟨v, rfl, hu, hn, pre, k, post, h⟩
          · rintro ⟨v2, hv, _, _, pre, k, post, h⟩
            cases hv
            exact ⟨pre, k, post, h⟩
  · intro hall
    cases val with
    | none => exact ⟨_, rfl⟩
    | some v =>
      by_cases hu : v = Value.undefined
      · subst hu; exact ⟨_, rfl⟩
      · by_cases hn : v = Value.null
        · subst hn; exact ⟨_, rfl⟩
        · obtain ⟨hkeys, text, hc⟩ := hall v rfl
          rw [parseClientOptions_present v hu hn, parseKeys_all_propagator _ _ _ hkeys, hc]
          by_cases hnil : Keys v.ToObject = []
          · rw [if_pos hnil]; exact ⟨_, rfl⟩
          · rw [if_neg hnil]; exact ⟨_, rfl⟩

/-- C1, on concrete inputs: the object with the single key `foo` is rejected
and the empty object is accepted. -/
theorem parseClientOptions_error_iff_witness :
    (∃ opts err, parseClientOptions (some (Value.object [("foo", Value.number 1 (by decide))]))
      = Except.ok (opts, some err)) ∧
    (∃ opts, parseClientOptions (some (Value.object [])) = Except.ok (opts, none)) :=
  ⟨(parseClientOptions_error_iff
      (some (Value.object [("foo", Value.number 1 (by decide))]))).1.mpr
      ⟨_, rfl, by simp, by simp, [], "foo", [], rfl, by simp, by decide, by simp⟩,
   (parseClientOptions_error_iff (some (Value.object []))).2
      (by
        intro v hv
        cases hv
        exact ⟨by intro k hk; simp [Keys, Value.ToObject] at hk, "undefined", rfl⟩)⟩

/-- C2 fails as stated: the configuration `{propagator: {toString: 1}, foo: 1}`
has the unrecognized key `foo`, yet `parseClientOptions` returns no error
text: the string conversion of the propagator value, reached before `foo`,
throws a TypeError. -/
theorem parseClientOptions_error_text_counterexample :
    (∃ k ∈ Keys (Value.object
        [("propagator", Value.object [("toString", Value.number 1 (by decide))]),
         ("foo", Value.number 1 (by decide))]).ToObject, k ≠ "propagator") ∧
    parseClientOptions (some (Value.object
        [("propagator", Value.object [("toString", Value.number 1 (by decide))]),
         ("foo", Value.number 1 (by decide))]))
      = Except.error Exception.typeError :=
  ⟨⟨"foo", by simp [Keys, Value.ToObject], by decide⟩, rfl⟩

/-- C2, amended: for every configuration with an unrecognized key, let `k`
be the first key, in enumeration order, that is not `propagator`.  Every
error `parseClientOptions` returns has exactly the text
`unknown HTTP tracing option '<k>'`, and it returns that error whenever the
string conversion of a propagator value enumerated before `k` does not
throw. -/
theorem parseClientOptions_error_names_first_unknown (v : Value)
    (hu : v ≠ Value.undefined) (hn : v ≠ Value.null)
    (h : ∃ k ∈ Keys v.ToObject, k ≠ "propagator") :
    ∃ pre k post, Keys v.ToObject = pre ++ k :: post ∧
      (∀ x ∈ pre, x = "propagator") ∧ k ≠ "propagator" ∧
      (∀ opts err, parseClientOptions (some v) = Except.ok (opts, some err) →
        err = "unknown HTTP tracing option '" ++ k ++ "'") ∧
      ((pre ≠ [] → ∃ text, (Get v.ToObject "propagator").ToString = Except.ok text) →
        ∃ opts, parseClientOptions (some v)
          = Except.ok (opts, some ("unknown HTTP tracing option '" ++ k ++ "'"))) := by
  obtain ⟨pre, k, post, he, hp, hk⟩ := exists_first_unknown _ h
  refine ⟨pre, k, post, he, hp, hk, ?_, ?_⟩
  · intro opts err hret
    rw [parseClientOptions_present v hu hn, he,
      parseKeys_first_unknown _ pre post k _ hp hk] at hret
    by_cases hnil : pre = []
    · rw [if_pos hnil] at hret
      cases hret
      rfl
    · rw [if_neg hnil] at hret
      cases hc : (Get v.ToObject "propagator").ToString with
      | error ex => rw [hc] at hret; cases hret
      | ok text =>
        rw [hc] at hret
        cases hret
        rfl
  · intro hconv
    rw [parseClientOptions_present v hu hn, he, parseKeys_first_unknown _ pre post k _ hp hk]
    by_cases hnil : pre = []
    · rw [if_pos hnil]; exact ⟨_, rfl⟩
    · rw [if_neg hnil]
      obtain ⟨text, hc⟩ := hconv hnil
      rw [hc]
      exact ⟨_, rfl⟩

/-- C2, on the configuration `{foo: 1}`: an error is returned and its text
names `foo`. -/
theorem parseClientOptions_error_names_first_unknown_witness :
    ∃ opts, parseClientOptions (some (Value.object [("foo", Value.number 1 (by decide))]))
      = Except.ok (opts, some "unknown HTTP tracing option 'foo'") := by
  obtain ⟨pre, k, post, he, hp, hk, _, hret⟩ :=
    parseClientOptions_error_names_first_unknown
      (Value.object [("foo", Value.number 1 (by decide))])
      (by simp) (by simp) ⟨"foo", by simp [Keys, Value.ToObject], by decide⟩
  have hkeys : Keys (Value.object [("foo", Value.number 1 (by decide))]).ToObject
      = [] ++ "foo" :: [] := rfl
  rw [hkeys] at he
  obtain ⟨hpre, hfoo⟩ := first_unknown_unique [] pre [] post "foo" k he (by simp) (by decide)
    hp hk
  subst hpre
  subst hfoo
  exact hret (fun hne => absurd rfl hne)

/-- C3: for a configuration value that is nil, undefined or null, and for an
object with no keys, `parseClientOptions` returns no error and Options whose
Propagator is the W3C constant `client.PropagatorW3C`. -/
theorem parseClientOptions_default (val : Option Value)
    (h : val = none ∨ ∃ v, val = some v ∧
      (v = Value.undefined ∨ v = Value.null ∨ Keys v.ToObject = [])) :
    parseClientOptions val = Except.ok ({ Propagator := client.PropagatorW3C }, none) := by
  rcases h with rfl | ⟨v, rfl, hv⟩
  · rfl
  · rcases hv with rfl | rfl | hk
    · rfl
    · rfl
    · simp only [parseClientOptions, hk, parseKeys]
      split <;> rfl

/-- C3, on the empty object. -/
theorem parseClientOptions_default_witness :
    parseClientOptions (some (Value.object [])) = Except.ok ({ Propagator := "w3c" }, none) :=
  parseClientOptions_default (some (Value.object []))
    (Or.inr ⟨_, rfl, Or.inr (Or.inr rfl)⟩)

/-- C4: the code at an accepted configuration whose propagator is not a
supported name: `{propagator: "not-a-propagator"}` is accepted and the
returned Propagator is `not-a-propagator`, which is not the W3C name; and
whatever the finite set of supported names, some accepted configuration
yields a Propagator outside it. -/
theorem parseClientOptions_accepts_unsupported :
    parseClientOptions (some (Value.object [("propagator", Value.string "not-a-propagator")]))
      = Except.ok ({ Propagator := "not-a-propagator" }, none) ∧
    "not-a-propagator" ≠ client.PropagatorW3C ∧
    ∀ supported : List String, ∃ v opts,
      parseClientOptions (some v) = Except.ok (opts, none) ∧
        opts.Propagator ∉ supported := by
  refine ⟨rfl, by decide, ?_⟩
  intro supported
  obtain ⟨s, hs⟩ := Infinite.exists_not_mem_finset supported.toFinset
  refine ⟨Value.object [("propagator", Value.string s)], { Propagator := s }, ?_, ?_⟩
  · simp [parseClientOptions, IsUndefined, IsNull, Value.ToObject, Keys, parseKeys, Get,
      Value.ToString]
  · simpa using hs

/-- C5 fails as stated: for the value `{toString: 1}` the configuration
`{propagator: v}` is not accepted: the string conversion of the value throws
a TypeError, which leaves `parseClientOptions`. -/
theorem parseClientOptions_passthrough_counterexample :
    (Value.object [("toString", Value.number 1 (by decide))]).ToString
      = Except.error Exception.typeError ∧
    parseClientOptions (some (Value.object
        [("propagator", Value.object [("toString", Value.number 1 (by decide))])]))
      = Except.error Exception.typeError :=
  ⟨rfl, rfl⟩

/-- C5, amended: propagator values pass through unvalidated: for every value
`v` whose string conversion does not throw, the configuration
`{propagator: v}` is accepted and the returned Propagator is the string
conversion of `v`, supported name or not; when the conversion throws, its
exception leaves `parseClientOptions`. -/
theorem parseClientOptions_propagator_passthrough (v : Value) :
    (∀ text, v.ToString = Except.ok text →
      parseClientOptions (some (Value.object [("propagator", v)]))
        = Except.ok ({ Propagator := text }, none)) ∧
    (∀ ex, v.ToString = Except.error ex →
      parseClientOptions (some (Value.object [("propagator", v)])) = Except.error ex) := by
  constructor
  · intro text h
    simp [parseClientOptions, IsUndefined, IsNull, Value.ToObject, Keys, parseKeys, Get, h]
  · intro ex h
    simp [parseClientOptions, IsUndefined, IsNull, Value.ToObject, Keys, parseKeys, Get, h]

/-- C5, on the values `"b3"`, which is passed through, and `{toString: 1}`,
whose conversion throws. -/
theorem parseClientOptions_propagator_passthrough_witness :
    parseClientOptions (some (Value.object [("propagator", Value.string "b3")]))
      = Except.ok ({ Propagator := "b3" }, none) ∧
    parseClientOptions (some (Value.object
        [("propagator", Value.object [("toString", Value.string "x")])]))
      = Except.error Exception.typeError :=
  ⟨(parseClientOptions_propagator_passthrough (Value.string "b3")).1 "b3" rfl,
   (parseClientOptions_propagator_passthrough
      (Value.object [("toString", Value.string "x")])).2 Exception.typeError rfl⟩

end tracing

namespace tracing

open goja

/-! ## The constructor and the process-wide state -/

theorem http_of_exception (t : DistributedTracing) (args : List Value)
    (startErr : Option String) (w : otel.World) (ex : Exception)
    (h : parseClientOptions (some (Argument args 0)) = Except.error ex) :
    http t args startErr w = (Outcome.exception ex, w) := by
  unfold http
  rw [h]

theorem http_of_parse_error (t : DistributedTracing) (args : List Value)
    (startErr : Option String) (w : otel.World) (opts : client.Options) (err : String)
    (h : parseClientOptions (some (Argument args 0)) = Except.ok (opts, some err)) :
    http t args startErr w = (Outcome.thrown err, w) := by
  unfold http
  rw [h]

theorem http_of_start_error (t : DistributedTracing) (args : List Value)
    (err : String) (w : otel.World) (opts : client.Options)
    (h : parseClientOptions (some (Argument args 0)) = Except.ok (opts, none)) :
    http t args (some err) w = (Outcome.fatal err, w) := by
  unfold http
  rw [h]
  rfl

theorem http_of_success (t : DistributedTracing) (args : List Value) (w : otel.World)
    (opts : client.Options)
    (h : parseClientOptions (some (Argument args 0)) = Except.ok (opts, none)) :
    http t args none w =
      (Outcome.returned (client.New t.vu t.httpRequest
          ((nextProvider w).Tracer "xk6-otel-tracing") opts),
        { exporters := w.exporters ++ [nextExporter w]
          providers := w.providers ++ [nextProvider w]
          globalProvider := some (nextProvider w) }) := by
  unfold http
  rw [h]
  rfl

theorem http_cases (t : DistributedTracing) (args : List Value)
    (startErr : Option String) (w : otel.World) :
    (∃ ex, http t args startErr w = (Outcome.exception ex, w)) ∨
    (∃ err, http t args startErr w = (Outcome.thrown err, w)) ∨
    (∃ err, http t args startErr w = (Outcome.fatal err, w)) ∨
    (∃ opts, parseClientOptions (some (Argument args 0)) = Except.ok (opts, none) ∧
      startErr = none) := by
  cases hp : parseClientOptions (some (Argument args 0)) with
  | error ex => exact Or.inl ⟨ex, http_of_exception t args startErr w ex hp⟩
  | ok r =>
    obtain ⟨opts, e⟩ := r
    cases e with
    | some err => exact Or.inr (Or.inl ⟨err, http_of_parse_error t args startErr w opts err hp⟩)
    | none =>
      cases startErr with
      | some err => exact Or.inr (Or.inr (Or.inl ⟨err, http_of_start_error t args err w opts hp⟩))
      | none => exact Or.inr (Or.inr (Or.inr ⟨opts, rfl, rfl⟩))

theorem http_returned_inv (t : DistributedTracing) (args : List Value)
    (startErr : Option String) (w w' : otel.World) (c : client.Client)
    (h : http t args startErr w = (Outcome.returned c, w')) :
    ∃ opts, parseClientOptions (some (Argument args 0)) = Except.ok (opts, none) ∧
      startErr = none := by
  rcases http_cases t args startErr w with ⟨ex, h2⟩ | ⟨err, h2⟩ | ⟨err, h2⟩ | h2
  · rw [h2] at h; cases h
  · rw [h2] at h; cases h
  · rw [h2] at h; cases h
  · exact h2

theorem nextExporter_not_mem (w : otel.World) (hw : WellNumbered w) :
    nextExporter w ∉ w.exporters := by
  intro hmem
  exact Nat.lt_irrefl _ (hw.1 _ hmem)

theorem nextProvider_not_mem (w : otel.World) (hw : WellNumbered w) :
    nextProvider w ∉ w.providers := by
  intro hmem
  exact Nat.lt_irrefl _ (hw.2 _ hmem)

theorem wellNumbered_init : WellNumbered otel.World.init := by
  constructor <;> intro x hx <;> cases hx

theorem wellNumbered_http (t : DistributedTracing) (args : List Value)
    (startErr : Option String) (w : otel.World) (hw : WellNumbered w) :
    WellNumbered (http t args startErr w).2 := by
  rcases http_cases t args startErr w with ⟨ex, h2⟩ | ⟨err, h2⟩ | ⟨err, h2⟩ | ⟨opts, hp, hs⟩
  · rw [h2]; exact hw
  · rw [h2]; exact hw
  · rw [h2]; exact hw
  · subst hs
    rw [http_of_success t args w opts hp]
    constructor
    · intro e he
      simp only [List.mem_append, List.mem_singleton, List.length_append,
        List.length_singleton] at he ⊢
      rcases he with he | rfl
      · exact Nat.lt_succ_of_lt (hw.1 e he)
      · exact Nat.lt_succ_self _
    · intro p hp2
      simp only [List.mem_append, List.mem_singleton, List.length_append,
        List.length_singleton] at hp2 ⊢
      rcases hp2 with hp2 | rfl
      · exact Nat.lt_succ_of_lt (hw.2 p hp2)
      · exact Nat.lt_succ_self _

theorem wellNumbered_runCalls (calls : List (DistributedTracing × List Value))
    (w : otel.World) (hw : WellNumbered w) : WellNumbered (runCalls calls w).2 := by
  induction calls generalizing w with
  | nil => exact hw
  | cons c rest ih =>
    obtain ⟨t, args⟩ := c
    simp only [runCalls]
    exact ih _ (wellNumbered_http t args none w hw)

theorem runCalls_append_one (calls : List (DistributedTracing × List Value))
    (t : DistributedTracing) (args : List Value) (w : otel.World) :
    runCalls (calls ++ [(t, args)]) w =
      ((runCalls calls w).1 ++ [(http t args none (runCalls calls w).2).1],
        (http t args none (runCalls calls w).2).2) := by
  induction calls generalizing w with
  | nil => rfl
  | cons c rest ih =>
    obtain ⟨t0, args0⟩ := c
    have hstep := ih (http t0 args0 none w).2
    show ((http t0 args0 none w).1 :: (runCalls (rest ++ [(t, args)]) (http t0 args0 none w).2).1,
        (runCalls (rest ++ [(t, args)]) (http t0 args0 none w).2).2) = _
    rw [hstep]
    rfl

theorem providers_length_http (t : DistributedTracing) (args : List Value)
    (startErr : Option String) (w : otel.World) :
    (http t args startErr w).2.providers.length =
      w.providers.length + (if (http t args startErr w).1.isReturned then 1 else 0) := by
  rcases http_cases t args startErr w with ⟨ex, h2⟩ | ⟨err, h2⟩ | ⟨err, h2⟩ | ⟨opts, hp, hs⟩
  · rw [h2]; rfl
  · rw [h2]; rfl
  · rw [h2]; rfl
  · subst hs
    rw [http_of_success t args w opts hp]
    simp [Outcome.isReturned]

end tracing

namespace tracing

open goja

/-- C6: when `parseClientOptions` fails on the first argument, the `Http`
constructor throws that error and has no effect on the process-wide state:
no exporter and no tracer provider is created and the globally registered
provider is unchanged. -/
theorem http_config_error_no_effect (t : DistributedTracing) (args : List Value)
    (startErr : Option String) (w : otel.World) (opts : client.Options) (err : String)
    (h : parseClientOptions (some (Argument args 0)) = Except.ok (opts, some err)) :
    (http t args startErr w).1 = Outcome.thrown err ∧
    (http t args startErr w).2.exporters = w.exporters ∧
    (http t args startErr w).2.providers = w.providers ∧
    (http t args startErr w).2.globalProvider = w.globalProvider := by
  rw [http_of_parse_error t args startErr w opts err h]
  exact ⟨rfl, rfl, rfl, rfl⟩

/-- C6, on the call `new Http({foo: 1})` in a fresh process. -/
theorem http_config_error_no_effect_witness :
    (http ⟨⟨1⟩, ⟨⟨1⟩⟩⟩ [Value.object [("foo", Value.number 1 (by decide))]] none otel.World.init).1
      = Outcome.thrown "unknown HTTP tracing option 'foo'" ∧
    (http ⟨⟨1⟩, ⟨⟨1⟩⟩⟩ [Value.object [("foo", Value.number 1 (by decide))]] none otel.World.init).2.exporters
      = [] ∧
    (http ⟨⟨1⟩, ⟨⟨1⟩⟩⟩ [Value.object [("foo", Value.number 1 (by decide))]] none otel.World.init).2.providers
      = [] ∧
    (http ⟨⟨1⟩, ⟨⟨1⟩⟩⟩ [Value.object [("foo", Value.number 1 (by decide))]] none
      otel.World.init).2.globalProvider = none :=
  http_config_error_no_effect ⟨⟨1⟩, ⟨⟨1⟩⟩⟩ [Value.object [("foo", Value.number 1 (by decide))]] none
    otel.World.init ⟨"w3c"⟩ "unknown HTTP tracing option 'foo'" rfl

/-- C7: `newResource` takes no input, is total, and returns the fixed
attribute set `service.name = xk6-otlptrace`, `service.version = 0.0.1`
under the semconv schema URL; any two calls return equal descriptors. -/
theorem newResource_fixed (u u' : Unit) :
    newResource u =
      { schemaURL := semconv.SchemaURL
        attrs := [("service.name", "xk6-otlptrace"), ("service.version", "0.0.1")] } ∧
    newResource u = newResource u' :=
  ⟨rfl, rfl⟩

/-- C8 fails as stated: `NewModuleInstance` creates no tracer provider, and
two `Http` constructor calls on one module instance create two. -/
theorem one_provider_per_instance_counterexample :
    (NewModuleInstance ⟨1⟩ (Except.ok ⟨⟨1⟩⟩) otel.World.init).1
      = Outcome.returned ⟨⟨1⟩, ⟨⟨1⟩⟩⟩ ∧
    (NewModuleInstance ⟨1⟩ (Except.ok ⟨⟨1⟩⟩) otel.World.init).2.providers.length = 0 ∧
    (runCalls [((⟨⟨1⟩, ⟨⟨1⟩⟩⟩ : DistributedTracing), []), (⟨⟨1⟩, ⟨⟨1⟩⟩⟩, [])]
      otel.World.init).2.providers.length = 2 := by
  refine ⟨rfl, rfl, ?_⟩
  decide

/-- C8, amended: `NewModuleInstance` leaves the process-wide state as it is
(it creates no tracer provider), and for every sequence of `Http`
constructor calls on one module instance the number of tracer providers
created is the number of calls that returned a client. -/
theorem providers_created_per_returned_call (t : DistributedTracing)
    (calls : List (List Value)) (w : otel.World) (vu : modules.VU)
    (exported : Except String client.HttpRequestFunc) :
    (NewModuleInstance vu exported w).2 = w ∧
    (runCalls (calls.map (fun a => (t, a))) w).2.providers.length =
      w.providers.length +
        (runCalls (calls.map (fun a => (t, a))) w).1.countP Outcome.isReturned := by
  constructor
  · cases exported <;> rfl
  · induction calls generalizing w with
    | nil => simp [runCalls]
    | cons a rest ih =>
      simp only [List.map_cons, runCalls, List.countP_cons]
      rw [ih (http t a none w).2, providers_length_http t a none w]
      omega

/-- C9: an `Http` constructor call that returns a client, made after any
sequence of earlier calls in the process, creates one exporter and one
tracer provider that were not there before, the provider batching to that
exporter and bound to `newResource()`; it registers that provider as the
global one, and the client's tracer comes from that provider; so after the
whole sequence the global provider is the one created by the last call. -/
theorem http_success_installs_new_provider
    (earlier : List (DistributedTracing × List Value)) (t : DistributedTracing)
    (args : List Value) (startErr : Option String) (c : client.Client) (w' : otel.World)
    (h : http t args startErr (runCalls earlier otel.World.init).2 = (Outcome.returned c, w')) :
    ∃ e p,
      e ∉ (runCalls earlier otel.World.init).2.exporters ∧
      p ∉ (runCalls earlier otel.World.init).2.providers ∧
      w'.exporters = (runCalls earlier otel.World.init).2.exporters ++ [e] ∧
      w'.providers = (runCalls earlier otel.World.init).2.providers ++ [p] ∧
      p.batcher = e ∧ p.resource = newResource () ∧
      w'.globalProvider = some p ∧
      c.tracer = p.Tracer "xk6-otel-tracing" ∧
      runCalls (earlier ++ [(t, args)]) otel.World.init =
        ((runCalls earlier otel.World.init).1 ++ [Outcome.returned c], w') ∧
      (runCalls (earlier ++ [(t, args)]) otel.World.init).2.globalProvider = some p := by
  obtain ⟨opts, hp, hs⟩ := http_returned_inv t args startErr _ w' c h
  subst hs
  have hw := wellNumbered_runCalls earlier otel.World.init wellNumbered_init
  have hrun := runCalls_append_one earlier t args otel.World.init
  rw [h] at hrun
  rw [http_of_success t args _ opts hp] at h
  simp only [Prod.mk.injEq, Outcome.returned.injEq] at h
  obtain ⟨hc, hw'⟩ := h
  refine ⟨nextExporter _, nextProvider _, nextExporter_not_mem _ hw, nextProvider_not_mem _ hw,
    ?_, ?_, rfl, rfl, ?_, ?_, hrun, ?_⟩
  · rw [← hw']
  · rw [← hw']
  · rw [← hw']
  · rw [← hc]; rfl
  · rw [hrun, ← hw']

/-- C9, on two constructor calls in a fresh process: after the second call
the global provider is the second provider created, and the client's tracer
comes from it. -/
theorem http_success_installs_new_provider_witness :
    ∃ e p,
      e ∉ [(⟨0⟩ : otel.Exporter)] ∧ p ∉ [(⟨0, ⟨0⟩, newResource ()⟩ : otel.TracerProvider)] ∧
      p = ⟨1, ⟨1⟩, newResource ()⟩ ∧ e = ⟨1⟩ ∧
      (runCalls [((⟨⟨1⟩, ⟨⟨1⟩⟩⟩ : DistributedTracing), []), (⟨⟨1⟩, ⟨⟨1⟩⟩⟩, [])]
        otel.World.init).2.globalProvider = some p := by
  obtain ⟨e, p, he, hp, _, hps, hb, _, _, _, _, hg⟩ :=
    http_success_installs_new_provider [((⟨⟨1⟩, ⟨⟨1⟩⟩⟩ : DistributedTracing), [])]
      ⟨⟨1⟩, ⟨⟨1⟩⟩⟩ [] none
      (client.New ⟨1⟩ ⟨⟨1⟩⟩ ((⟨1, ⟨1⟩, newResource ()⟩ : otel.TracerProvider).Tracer
        "xk6-otel-tracing") ⟨"w3c"⟩)
      { exporters := [⟨0⟩, ⟨1⟩]
        providers := [⟨0, ⟨0⟩, newResource ()⟩, ⟨1, ⟨1⟩, newResource ()⟩]
        globalProvider := some ⟨1, ⟨1⟩, newResource ()⟩ }
      (by decide)
  have hp1 : p = ⟨1, ⟨1⟩, newResource ()⟩ := by
    have h2 : ([⟨0, ⟨0⟩, newResource ()⟩, ⟨1, ⟨1⟩, newResource ()⟩] : List otel.TracerProvider)
        = [⟨0, ⟨0⟩, newResource ()⟩] ++ [p] := hps
    simp only [List.singleton_append, List.cons.injEq, and_true, true_and] at h2
    exact h2.symm
  have he1 : e = ⟨1⟩ := by rw [← hb, hp1]
  exact ⟨e, p, he, hp, hp1, he1, hg⟩

/-- C10: for every module instance, `Exports` has no default export and
exactly two named exports: `Http`, the constructor bound to that instance,
and `version`, the string `0.2.0`. -/
theorem Exports_named (c : DistributedTracing) :
    c.Exports.Default = none ∧
    c.Exports.Named.map Prod.fst = ["Http", "version"] ∧
    c.Exports.Named.lookup "Http" = some (Export.func (http c)) ∧
    c.Exports.Named.lookup "version" = some (Export.str "0.2.0") :=
  ⟨rfl, rfl, rfl, rfl⟩

end tracing
